import Mathlib

/-!
Verification development for the auto-crawler repository.

The Python source is embedded shallowly: HTML/script strings are `List Char`,
Python regex searches become explicit left-to-right scanners with the same
leftmost-match semantics, `json.loads` becomes a fuel-indexed recursive-descent
parser returning `Except`, Python `try/except` becomes `pyTry`, machine time is
`ℚ`, and the polling loop of `WatchVideoJob.run` becomes a structural recursion
over a list of per-iteration environments (timestamp, random component, call
duration, server response).
-/

namespace AutoCrawler

/-! ### Characters and basic scanning utilities -/

/-- Single quote character. -/
def sq : Char := Char.ofNat 39

/-- Double quote character. -/
def dq : Char := Char.ofNat 34

/-- Backslash character. -/
def bsl : Char := Char.ofNat 92

/-- Opening brace character. -/
def obr : Char := Char.ofNat 123

/-- Closing brace character. -/
def cbr : Char := Char.ofNat 125

/-- Python regex `\s` on ASCII text: space, tab, LF, CR, VT, FF. -/
def pyWs (c : Char) : Bool :=
  c = ' ' || c = Char.ofNat 9 || c = Char.ofNat 10 || c = Char.ofNat 13 ||
  c = Char.ofNat 11 || c = Char.ofNat 12

/-- Greedy `\s*`: drop leading Python whitespace. -/
def skipWs : List Char → List Char
  | [] => []
  | c :: rest => if pyWs c then skipWs rest else c :: rest

/-- Match a literal, returning the rest of the input on success. -/
def matchLit : List Char → List Char → Option (List Char)
  | [], s => some s
  | _ :: _, [] => none
  | p :: ps, c :: cs => if p = c then matchLit ps cs else none

/-- Match one given character. -/
def matchChar (ch : Char) : List Char → Option (List Char)
  | [] => none
  | c :: rest => if c = ch then some rest else none

/-- Match `[:=]` (one colon or equals sign). -/
def matchColonEq : List Char → Option (List Char)
  | [] => none
  | c :: rest => if c = ':' || c = '=' then some rest else none

/-- Match `["\']` (one double or single quote). -/
def matchQuote : List Char → Option (List Char)
  | [] => none
  | c :: rest => if c = dq || c = sq then some rest else none

/-- Greedy `\d*`: split off the leading run of ASCII digits. -/
def takeDigits : List Char → List Char × List Char
  | [] => ([], [])
  | c :: rest =>
    if c.isDigit then
      let (ds, r) := takeDigits rest
      (c :: ds, r)
    else ([], c :: rest)

/-- Greedy `[a-zA-Z0-9]*`: split off the leading run of ASCII alphanumerics. -/
def takeAlnum : List Char → List Char × List Char
  | [] => ([], [])
  | c :: rest =>
    if c.isAlphanum then
      let (ds, r) := takeAlnum rest
      (c :: ds, r)
    else ([], c :: rest)

/-- Numeric value of a digit string. -/
def digitsToNat (ds : List Char) : Nat :=
  ds.foldl (fun acc c => acc * 10 + (c.toNat - 48)) 0

/-- Require `\s+` then skip the rest of the run. -/
def wsPlus : List Char → Option (List Char)
  | [] => none
  | c :: rest => if pyWs c then some (skipWs rest) else none

/-- Driver for re.search: try the anchored matcher at each start position from
the left, taking the first position where it succeeds. -/
def searchAt {α : Type} (p : List Char → Option α) : List Char → Option α
  | [] => p []
  | c :: rest =>
    match p (c :: rest) with
    | some v => some v
    | none => searchAt p rest

/-- Capture `(\d+)` at the current position (at least one digit). -/
def digitsGroup (s : List Char) : Option Nat :=
  let (ds, _) := takeDigits s
  if ds = [] then none else some (digitsToNat ds)

/-- All characters are ASCII digits (Python `str.isdigit` on ASCII content,
combined with nonemptiness by the callers). -/
def allDigits (s : List Char) : Bool := s.all Char.isDigit

/-- Decimal digits of a natural number, most significant first (fuel-indexed so
the kernel can evaluate it). -/
def natReprGo : Nat → Nat → List Char → List Char
  | 0, _, acc => acc
  | fuel + 1, n, acc =>
    if n < 10 then Char.ofNat (48 + n) :: acc
    else natReprGo fuel (n / 10) (Char.ofNat (48 + n % 10) :: acc)

/-- Python `str` of a nonnegative integer. -/
def natRepr (n : Nat) : List Char := natReprGo (n + 1) n []

/-- Python `str` of an integer. -/
def intRepr (i : Int) : List Char :=
  if i < 0 then '-' :: natRepr i.natAbs else natRepr i.toNat

/-! ### JSON values and `json.loads`

`json.loads` is embedded as a strict recursive-descent parser on the JSON
fragment the page blobs use: objects with double-quoted keys, arrays, strings
with the common escapes, integers, `true`/`false`/`null`.  Anything outside
that fragment (floats, `\u` escapes) is rejected, which for the claims below
only matters in that rejection raises `ValueError` exactly like malformed
input does.  Unquoted keys, single-quoted strings and trailing commas are
rejected, as in Python. -/

/-- JSON values.  Numbers in the pages under consideration are integers. -/
inductive Json where
  | null : Json
  | bool (b : Bool) : Json
  | num (n : Int) : Json
  | str (s : List Char) : Json
  | arr (xs : List Json) : Json
  | obj (kvs : List (List Char × Json)) : Json

/-- Python exceptions that the embedded code can raise. -/
inductive PyExc where
  | valueError : PyExc
deriving DecidableEq

/-- Result of running embedded Python code: a value or a raised exception. -/
abbrev Py (α : Type) : Type := Except PyExc α

/-- Python `try: x except Exception: h`. -/
def pyTry {α : Type} (x : Py α) (h : Py α) : Py α :=
  match x with
  | .ok v => .ok v
  | .error _ => h

/-- JSON whitespace (space, tab, LF, CR). -/
def jWs (c : Char) : Bool :=
  c = ' ' || c = Char.ofNat 9 || c = Char.ofNat 10 || c = Char.ofNat 13

/-- Drop leading JSON whitespace. -/
def skipWsJ : List Char → List Char
  | [] => []
  | c :: rest => if jWs c then skipWsJ rest else c :: rest

/-- JSON string escape table (`\uXXXX` is not modelled and is rejected). -/
def escMap (c : Char) : Option Char :=
  if c = dq then some dq
  else if c = bsl then some bsl
  else if c = '/' then some '/'
  else if c = 'n' then some (Char.ofNat 10)
  else if c = 't' then some (Char.ofNat 9)
  else if c = 'r' then some (Char.ofNat 13)
  else if c = 'b' then some (Char.ofNat 8)
  else if c = 'f' then some (Char.ofNat 12)
  else none

/-- Parse the body of a JSON string after the opening quote; returns the
decoded contents and the input after the closing quote. -/
def parseStrBody : List Char → Option (List Char × List Char)
  | [] => none
  | c :: rest =>
    if c = dq then some ([], rest)
    else if c = bsl then
      match rest with
      | [] => none
      | e :: r2 =>
        match escMap e with
        | none => none
        | some ec =>
          match parseStrBody r2 with
          | some (s, r) => some (ec :: s, r)
          | none => none
    else if c.toNat < 32 then none
    else
      match parseStrBody rest with
      | some (s, r) => some (c :: s, r)
      | none => none

/-- Parse a JSON integer literal (digits after an optional sign handled by the
caller); floats and exponents are rejected. -/
def parseNum (s : List Char) : Option (Nat × List Char) :=
  let (ds, rest) := takeDigits s
  match ds with
  | [] => none
  | d :: ds' =>
    if d = '0' && ds' ≠ [] then none
    else
      match rest with
      | [] => some (digitsToNat ds, rest)
      | e :: _ => if e = '.' || e = 'e' || e = 'E' then none else some (digitsToNat ds, rest)

/-- Insert with Python `dict` semantics: a repeated key replaces the earlier
value in place. -/
def objInsert : List (List Char × Json) → List Char → Json → List (List Char × Json)
  | [], k, v => [(k, v)]
  | (k', v') :: rest, k, v =>
    if k' = k then (k', v) :: rest else (k', v') :: objInsert rest k v

mutual

/-- Parse one JSON value; fuel-indexed so recursion is structural. -/
def parseVal : Nat → List Char → Option (Json × List Char)
  | 0, _ => none
  | fuel + 1, s =>
    match s with
    | [] => none
    | c :: rest =>
      if c = obr then
        let s1 := skipWsJ rest
        match s1 with
        | [] => none
        | d :: r1 => if d = cbr then some (.obj [], r1) else parseMembers fuel [] s1
      else if c = '[' then
        let s1 := skipWsJ rest
        match s1 with
        | [] => none
        | d :: r1 => if d = ']' then some (.arr [], r1) else parseItems fuel [] s1
      else if c = dq then
        match parseStrBody rest with
        | some (cs, r) => some (.str cs, r)
        | none => none
      else if c = 't' then
        match matchLit (String.toList "rue") rest with
        | some r => some (.bool true, r)
        | none => none
      else if c = 'f' then
        match matchLit (String.toList "alse") rest with
        | some r => some (.bool false, r)
        | none => none
      else if c = 'n' then
        match matchLit (String.toList "ull") rest with
        | some r => some (.null, r)
        | none => none
      else if c = '-' then
        match parseNum rest with
        | some (n, r) => some (.num (-(n : Int)), r)
        | none => none
      else if c.isDigit then
        match parseNum (c :: rest) with
        | some (n, r) => some (.num (n : Int), r)
        | none => none
      else none

/-- Parse the members of a JSON object after the opening brace (nonempty). -/
def parseMembers : Nat → List (List Char × Json) → List Char → Option (Json × List Char)
  | 0, _, _ => none
  | fuel + 1, acc, s =>
    match s with
    | [] => none
    | c :: rest =>
      if c = dq then
        match parseStrBody rest with
        | none => none
        | some (key, r1) =>
          match skipWsJ r1 with
          | ':' :: r3 =>
            match parseVal fuel (skipWsJ r3) with
            | none => none
            | some (v, r4) =>
              let acc' := objInsert acc key v
              match skipWsJ r4 with
              | ',' :: r6 => parseMembers fuel acc' (skipWsJ r6)
              | d :: r6 => if d = cbr then some (.obj acc', r6) else none
              | [] => none
          | _ => none
      else none

/-- Parse the items of a JSON array after the opening bracket (nonempty). -/
def parseItems : Nat → List Json → List Char → Option (Json × List Char)
  | 0, _, _ => none
  | fuel + 1, acc, s =>
    match parseVal fuel s with
    | none => none
    | some (v, r1) =>
      match skipWsJ r1 with
      | ',' :: r2 => parseItems fuel (acc ++ [v]) (skipWsJ r2)
      | d :: r2 => if d = ']' then some (.arr (acc ++ [v]), r2) else none
      | [] => none

end

/-- Embedding of json.loads: parse a whole document, raising ValueError on
failure or trailing garbage. -/
def jsonLoads (s : List Char) : Py Json :=
  match parseVal (s.length + 1) (skipWsJ s) with
  | some (v, rest) =>
    match skipWsJ rest with
    | [] => .ok v
    | _ :: _ => .error .valueError
  | none => .error .valueError

/-- Lookup in a parsed JSON object's member list (`dict` keys are unique by
construction of `objInsert`, so the first hit is the value). -/
def lookupKv : List (List Char × Json) → List Char → Option Json
  | [], _ => none
  | (k, v) :: rest, key => if k = key then some v else lookupKv rest key

/-- Python `d.get(key)` on a parsed JSON object (`none` for non-objects, whose
uses in the source are guarded by `isinstance` checks or `try`). -/
def jget : Json → List Char → Option Json
  | .obj kvs, key => lookupKv kvs key
  | _, _ => none

/-! ### Regex scanners of `http_client.py`

Each Python `re.search(pattern, html)` becomes `searchAt` of an anchored
matcher mirroring that pattern's backtracking behaviour. -/

/-- After a `{`, capture the lazy group of `\{.*?\}\s*;` (DOTALL): content up
to the first `}` that is followed by optional whitespace and a `;`; earlier
`}` characters not followed by `;` are part of `.*?`. -/
def braceSemiGo : List Char → Option (List Char)
  | [] => none
  | c :: rest =>
    if c = cbr && (match skipWs rest with
                   | d :: _ => d = ';'
                   | [] => false) then
      some [cbr]
    else
      match braceSemiGo rest with
      | some t => some (c :: t)
      | none => none

/-- After a `{`, capture the lazy group of `\{.*?\}` (DOTALL): content up to
the first `}`. -/
def braceGo : List Char → Option (List Char)
  | [] => none
  | c :: rest =>
    if c = cbr then some [cbr]
    else
      match braceGo rest with
      | some t => some (c :: t)
      | none => none

/-- Anchored `playerdata\s*=\s*(\{.*?\})\s*;`. -/
def pdEqAt (s : List Char) : Option (List Char) := do
  let r1 ← matchLit (String.toList "playerdata") s
  let r2 ← matchChar '=' (skipWs r1)
  let r3 ← matchChar obr (skipWs r2)
  let t ← braceSemiGo r3
  pure (obr :: t)

/-- Anchored `playerdata\s*:\s*(\{.*?\})`. -/
def pdColonAt (s : List Char) : Option (List Char) := do
  let r1 ← matchLit (String.toList "playerdata") s
  let r2 ← matchChar ':' (skipWs r1)
  let r3 ← matchChar obr (skipWs r2)
  let t ← braceGo r3
  pure (obr :: t)

/-- The raw `playerdata` object literal, preferring the `=` form
(http_client.py lines 244-246). -/
def playerdataRaw (html : List Char) : Option (List Char) :=
  match searchAt pdEqAt html with
  | some r => some r
  | none => searchAt pdColonAt html

/-- Anchored `M\.cfg\s*=\s*(\{.*?\})\s*;`. -/
def mcfgEqAt (s : List Char) : Option (List Char) := do
  let r1 ← matchLit (String.toList "M.cfg") s
  let r2 ← matchChar '=' (skipWs r1)
  let r3 ← matchChar obr (skipWs r2)
  let t ← braceSemiGo r3
  pure (obr :: t)

/-- Anchored `cfg\s*:\s*(\{.*?\})`. -/
def cfgColonAt (s : List Char) : Option (List Char) := do
  let r1 ← matchLit (String.toList "cfg") s
  let r2 ← matchChar ':' (skipWs r1)
  let r3 ← matchChar obr (skipWs r2)
  let t ← braceGo r3
  pure (obr :: t)

/-- The raw `M.cfg` object literal (http_client.py lines 334-339). -/
def mcfgRaw (html : List Char) : Option (List Char) :=
  match searchAt mcfgEqAt html with
  | some r => some r
  | none => searchAt cfgColonAt html

/-- Anchored `fsresourceid\s*[:=]\s*(\d+)`. -/
def fsid1At (s : List Char) : Option Nat := do
  let r1 ← matchLit (String.toList "fsresourceid") s
  let r2 ← matchColonEq (skipWs r1)
  digitsGroup (skipWs r2)

/-- Anchored `data-fsresourceid\s*=\s*\"?(\d+)\"?`. -/
def fsid2At (s : List Char) : Option Nat := do
  let r1 ← matchLit (String.toList "data-fsresourceid") s
  let r2 ← matchChar '=' (skipWs r1)
  let r3 := skipWs r2
  let r4 := match r3 with
            | c :: rr => if c = dq then rr else r3
            | [] => r3
  digitsGroup r4

/-- Scan the lazy `[^}]*?` span of pattern 3 for the earliest `id\s*:\s*(\d+)`,
failing on a `}`. -/
def fsid3Find : List Char → Option Nat
  | [] => none
  | c :: rest =>
    match (do
      let r1 ← matchLit (String.toList "id") (c :: rest)
      let r2 ← matchChar ':' (skipWs r1)
      digitsGroup (skipWs r2) : Option Nat) with
    | some n => some n
    | none => if c = cbr then none else fsid3Find rest

/-- Anchored `fsresource\s*:\s*\{[^}]*?id\s*:\s*(\d+)`. -/
def fsid3At (s : List Char) : Option Nat := do
  let r1 ← matchLit (String.toList "fsresource") s
  let r2 ← matchChar ':' (skipWs r1)
  let r3 ← matchChar obr (skipWs r2)
  fsid3Find r3

/-- Anchored `cmid\s*[:=]\s*(\d+)`. -/
def cmidAt (s : List Char) : Option Nat := do
  let r1 ← matchLit (String.toList "cmid") s
  let r2 ← matchColonEq (skipWs r1)
  digitsGroup (skipWs r2)

/-- The ordered fallback pattern list for `fsresourceid` (http_client.py
lines 275-288): first matching pattern wins. -/
def fsidFromPatterns (html : List Char) : Option Nat :=
  match searchAt fsid1At html with
  | some v => some v
  | none =>
    match searchAt fsid2At html with
    | some v => some v
    | none =>
      match searchAt fsid3At html with
      | some v => some v
      | none => searchAt cmidAt html

/-- Anchored `duration\s*[:=]\s*(\d+)`. -/
def dur1At (s : List Char) : Option Nat := do
  let r1 ← matchLit (String.toList "duration") s
  let r2 ← matchColonEq (skipWs r1)
  digitsGroup (skipWs r2)

/-- Anchored `data-duration\s*=\s*\"?(\d+)\"?`. -/
def dur2At (s : List Char) : Option Nat := do
  let r1 ← matchLit (String.toList "data-duration") s
  let r2 ← matchChar '=' (skipWs r1)
  let r3 := skipWs r2
  let r4 := match r3 with
            | c :: rr => if c = dq then rr else r3
            | [] => r3
  digitsGroup r4

/-- The ordered duration pattern list (http_client.py lines 291-302). -/
def durFromPatterns (html : List Char) : Option Nat :=
  match searchAt dur1At html with
  | some v => some v
  | none => searchAt dur2At html

/-- Lazy `(.*?)</h2>` content scan (DOTALL). -/
def h2Content : List Char → Option (List Char)
  | [] => none
  | c :: rest =>
    match matchLit (String.toList "</h2>") (c :: rest) with
    | some _ => some []
    | none =>
      match h2Content rest with
      | some acc => some (c :: acc)
      | none => none

/-- Greedy `[^>]*` before the closing `>` of the `<h2 ...>` tag. -/
def dropUntilGt : List Char → List Char
  | [] => []
  | c :: rest => if c = '>' then c :: rest else dropUntilGt rest

/-- Anchored `<h2[^>]*>(.*?)</h2>` (DOTALL). -/
def h2At (s : List Char) : Option (List Char) := do
  let r1 ← matchLit (String.toList "<h2") s
  let r2 ← matchChar '>' (dropUntilGt r1)
  h2Content r2

/-- Collapse whitespace runs to single spaces (the whitespace-collapsing
re.sub of the title extraction; fuel-indexed single pass). -/
def collapseWsGo : Nat → List Char → List Char
  | 0, s => s
  | fuel + 1, [] => []
  | fuel + 1, c :: rest =>
    if pyWs c then ' ' :: collapseWsGo fuel (skipWs rest)
    else c :: collapseWsGo fuel rest

/-- Collapse whitespace, then `.strip()`. -/
def collapseAndStrip (s : List Char) : List Char :=
  let t := collapseWsGo s.length s
  (skipWs (skipWs t.reverse).reverse)

/-- Anchored `name=["\']sesskey["\']\s+value=["\']([a-zA-Z0-9]+)["\']`. -/
def skInputAt (s : List Char) : Option (List Char) := do
  let r1 ← matchLit (String.toList "name=") s
  let r2 ← matchQuote r1
  let r3 ← matchLit (String.toList "sesskey") r2
  let r4 ← matchQuote r3
  let r5 ← wsPlus r4
  let r6 ← matchLit (String.toList "value=") r5
  let r7 ← matchQuote r6
  let (g, r8) := takeAlnum r7
  if g = [] then none
  else do
    let _ ← matchQuote r8
    pure g

/-- Tail of the generic sesskey pattern after the optional quote:
`\s*[:=]\s*["\']([a-zA-Z0-9]+)["\']`. -/
def skGenericTail (s : List Char) : Option (List Char) := do
  let r2 ← matchColonEq (skipWs s)
  let r3 ← matchQuote (skipWs r2)
  let (g, r4) := takeAlnum r3
  if g = [] then none
  else do
    let _ ← matchQuote r4
    pure g

/-- Anchored `sesskey["\']?\s*[:=]\s*["\']([a-zA-Z0-9]+)["\']` with
backtracking over the optional quote. -/
def skGenericAt (s : List Char) : Option (List Char) := do
  let r1 ← matchLit (String.toList "sesskey") s
  match r1 with
  | c :: rr =>
    if c = dq || c = sq then
      match skGenericTail rr with
      | some g => some g
      | none => skGenericTail r1
    else skGenericTail r1
  | [] => skGenericTail r1

/-! ### Context Extractor operations (`MoodleClient` statics) -/

/-- Embeds MoodleClient.extract_sesskey (http_client.py lines 58-72):
input-field pattern first, then the generic sesskey pattern; None when
neither matches.  The body only runs re.search, so no exception path
exists. -/
def extract_sesskey (html : List Char) : Py (Option (List Char)) :=
  .ok (match searchAt skInputAt html with
       | some g => some g
       | none => searchAt skGenericAt html)

/-- Remove a comma standing before a closing bracket (the trailing-comma
re.sub normalization), single left-to-right pass. -/
def rtcGo : Nat → List Char → List Char
  | 0, s => s
  | fuel + 1, [] => []
  | fuel + 1, c :: rest =>
    if c = ',' then
      match skipWs rest with
      | b :: after =>
        if b = cbr || b = ']' then b :: rtcGo fuel after
        else c :: rtcGo fuel rest
      | [] => c :: rtcGo fuel rest
    else c :: rtcGo fuel rest

/-- Remove trailing commas before `}` or `]`. -/
def removeTrailingCommas (s : List Char) : List Char := rtcGo s.length s

/-- Replace every single-quote character by a double quote. -/
def replaceQuotes (s : List Char) : List Char :=
  s.map fun c => if c = sq then dq else c

/-- The result dict of `extract_fsresource_info`. -/
structure FsInfo where
  fsresourceid : Option Int
  duration : Option Int
  name : Option (List Char)
  sesskey : Option (List Char)
deriving DecidableEq

/-- The `try:` body over the matched `playerdata` literal (http_client.py
lines 250-269): normalize commas then quotes, `json.loads`, then take
`fsresourceid` when it is an int or a digit string, and a nonempty string
`sesskey`.  Raises whenever `json.loads` does. -/
def structuredFields (info : FsInfo) (pdata : Json) : FsInfo :=
  let i1 :=
    match jget pdata (String.toList "fsresourceid") with
    | some (Json.num n) => { info with fsresourceid := some n }
    | some (Json.str s) =>
      if s ≠ [] && allDigits s then { info with fsresourceid := some (digitsToNat s : Int) }
      else info
    | _ => info
  match jget pdata (String.toList "sesskey") with
  | some (Json.str s) => if s ≠ [] then { i1 with sesskey := some s } else i1
  | _ => i1

/-- The `try:` body continued: normalize commas then quotes, `json.loads`,
extract the fields; raises whenever `json.loads` does. -/
def structuredAttempt (info : FsInfo) (raw : List Char) : Py FsInfo :=
  match jsonLoads (replaceQuotes (removeTrailingCommas raw)) with
  | .error e => .error e
  | .ok pdata => .ok (structuredFields info pdata)

/-- Embeds MoodleClient.extract_fsresource_info (http_client.py lines 233-309):
structured `playerdata` parse under `try/except pass`, then the generic
pattern lists run unconditionally (their first match overwriting the field),
then the `<h2>` title.  `int()` on a `(\d+)` capture cannot raise, so the
pattern loops' `try` bodies are embedded as total updates. -/
def fsInfoEmpty : FsInfo := ⟨none, none, none, none⟩

/-- Resource-id override by the unconditional pattern loop: the first
matching pattern's capture replaces the field; no match leaves it alone. -/
def fsidOverride (html : List Char) (i : FsInfo) : FsInfo :=
  match fsidFromPatterns html with
  | some v => { i with fsresourceid := some (v : Int) }
  | none => i

/-- Duration override by the duration pattern loop. -/
def durOverride (html : List Char) (i : FsInfo) : FsInfo :=
  match durFromPatterns html with
  | some v => { i with duration := some (v : Int) }
  | none => i

/-- Title extraction from the first `<h2>`. -/
def nameOverride (html : List Char) (i : FsInfo) : FsInfo :=
  match searchAt h2At html with
  | some t => { i with name := some (collapseAndStrip t) }
  | none => i

/-- The pattern-search and title phase of `extract_fsresource_info`
(http_client.py lines 274-308), applied to the info produced by the
structured phase. -/
def patternPhase (html : List Char) (info1 : FsInfo) : FsInfo :=
  nameOverride html (durOverride html (fsidOverride html info1))

/-- The structured phase of `extract_fsresource_info` (http_client.py lines
243-272): if a `playerdata` literal was located, run the normalization-parse
attempt under `try/except pass` (whose handler leaves the info dict as it
was); otherwise the info dict stays empty. -/
def structuredPhase (html : List Char) : Py FsInfo :=
  match playerdataRaw html with
  | none => .ok fsInfoEmpty
  | some raw => pyTry (structuredAttempt fsInfoEmpty raw) (.ok fsInfoEmpty)

/-- Embeds MoodleClient.extract_fsresource_info, assembled: structured phase under
`try/except pass`, then the unconditional pattern phase. -/
def extract_fsresource_info (html : List Char) : Py FsInfo :=
  match structuredPhase html with
  | .error e => .error e
  | .ok info1 => .ok (patternPhase html info1)

/-- Embeds MoodleClient.parse_m_cfg (http_client.py lines 329-357): locate the
`M.cfg` literal, strip trailing commas and `json.loads`; on failure re-try
with single quotes replaced; on failure return `{}` — never raise. -/
def parse_m_cfg (html : List Char) : Py Json :=
  match mcfgRaw html with
  | none => .ok (Json.obj [])
  | some raw =>
    pyTry (jsonLoads (removeTrailingCommas raw))
      (pyTry (jsonLoads (removeTrailingCommas (replaceQuotes raw)))
        (.ok (Json.obj [])))

/-! ### Transport: `MoodleClient.get` (http_client.py lines 31-51)

The network environment is a function from the 1-based attempt number to that
attempt's outcome: an HTTP response with some status, or a transport-level
exception raised by `session.get`.  The embedding returns the terminal
outcome, the list of `time.sleep` durations in order, and the number of
attempts consumed. -/

/-- One network attempt's outcome. -/
inductive Attempt where
  | resp (status : Nat) : Attempt
  | exc : Attempt
deriving DecidableEq

/-- Exceptions the request loop can capture: `requests.HTTPError` from
`raise_for_status`, or a transport-level exception. -/
inductive ReqExc where
  | httpError (status : Nat) : ReqExc
  | connError : ReqExc
deriving DecidableEq

/-- Terminal outcome of `MoodleClient.get`: a returned response, a re-raised
captured exception, or the guard `RuntimeError("Request failed without
exception")`. -/
inductive GetOutcome where
  | ok (status : Nat) : GetOutcome
  | raised (e : ReqExc) : GetOutcome
  | runtimeError : GetOutcome
deriving DecidableEq

/-- The spec's `NetworkError` taxonomy names any terminal failure of the
transport: a re-raised captured exception or the guard `RuntimeError`. -/
def isNetworkError : GetOutcome → Bool
  | .ok _ => false
  | .raised _ => true
  | .runtimeError => true

/-- Statuses 429, 500, 502, 503 and 504 trigger the retry branch. -/
def retryableStatus (s : Nat) : Bool :=
  s = 429 || s = 500 || s = 502 || s = 503 || s = 504

/-- After the `for` loop: re-raise `last_exc` if captured, else the guard
`RuntimeError`. -/
def finishGet : Option ReqExc → GetOutcome
  | some e => .raised e
  | none => .runtimeError

/-- Record one `time.sleep(backoff * attempt)` before the rest of the loop's
result, counting the attempt as consumed. -/
def sleepCons (backoff : ℚ) (n : Nat) (r : GetOutcome × List ℚ × Nat) :
    GetOutcome × List ℚ × Nat :=
  (r.1, backoff * n :: r.2.1, r.2.2 + 1)

/-- The retry loop of `MoodleClient.get`, at attempt number `n` with `fuel`
attempts remaining and `last` the captured `last_exc`.  A 200 returns at
once; a retryable status sleeps `backoff * attempt` and continues; any other
status calls `raise_for_status()`, whose `HTTPError` (for 4xx/5xx) is caught
by the surrounding `except`, captured, slept on and retried — while a
non-error status is returned as-is. -/
def getGo (att : Nat → Attempt) (backoff : ℚ) : Nat → Nat → Option ReqExc →
    GetOutcome × List ℚ × Nat
  | 0, _, last => (finishGet last, [], 0)
  | fuel + 1, n, last =>
    match att n with
    | .exc => sleepCons backoff n (getGo att backoff fuel (n + 1) (some .connError))
    | .resp s =>
      if s = 200 then (.ok s, [], 1)
      else if retryableStatus s then
        sleepCons backoff n (getGo att backoff fuel (n + 1) last)
      else if 400 ≤ s ∧ s < 600 then
        sleepCons backoff n (getGo att backoff fuel (n + 1) (some (.httpError s)))
      else (.ok s, [], 1)

/-- Embeds MoodleClient.get with `max_retries` attempts against environment `att`.
Returns (outcome, sleep durations, attempts consumed). -/
def clientGet (att : Nat → Attempt) (maxRetries : Nat) (backoff : ℚ) :
    GetOutcome × List ℚ × Nat :=
  getGo att backoff maxRetries 1 none

/-! ### Progress Engine: `WatchVideoJob.run` (jobs.py lines 61-206)

The loop is embedded over a list of per-iteration environments: the
wall-clock timestamp, the random component of the uniqueness token, the
duration of the network call, and the parsed response (or a raised
exception) of `post_service`.  Time is the elapsed seconds `t : ℚ` since
`start`; the loop guard, elapsed computation, template substitution, payload
adjustment, response unwrapping, completion check and sleep computation all
mirror the source line by line. -/

/-- Single left-to-right non-overlapping replacement pass of str.replace
(fuel-indexed). -/
def replaceAllGo (pat sub : List Char) : Nat → List Char → List Char
  | 0, s => s
  | _ + 1, [] => []
  | fuel + 1, c :: rest =>
    match matchLit pat (c :: rest) with
    | some after => sub ++ replaceAllGo pat sub fuel after
    | none => c :: replaceAllGo pat sub fuel rest

/-- Python str.replace of pat by sub in s. -/
def replaceAll (pat sub s : List Char) : List Char :=
  replaceAllGo pat sub s.length s

/-- Key constant. -/
def argsKey : List Char := String.toList "args"

/-- Key constant. -/
def progressKey : List Char := String.toList "progress"

/-- Key constant. -/
def finishKey : List Char := String.toList "finish"

/-- Key constant. -/
def uniqueKey : List Char := String.toList "unique"

/-- Key constant. -/
def dataKey : List Char := String.toList "data"

/-- Key constant. -/
def completionKey : List Char := String.toList "completion"

/-- Read of the value of `key` inside the args object of envelope entry 0,
when the payload has that shape (the membership test of jobs.py lines
160-174). -/
def argLookup (p : Json) (key : List Char) : Option Json :=
  match p with
  | .arr (Json.obj kvs :: _) =>
    match lookupKv kvs argsKey with
    | some (Json.obj akvs) => lookupKv akvs key
    | _ => none
  | _ => none

/-- The declared argument names of envelope entry 0. -/
def argKeys (p : Json) : List (List Char) :=
  match p with
  | .arr (Json.obj kvs :: _) =>
    match lookupKv kvs argsKey with
    | some (Json.obj akvs) => akvs.map Prod.fst
    | _ => []
  | _ => []

/-- Conditional overwrite of a declared argument in place (jobs.py lines
159-176, each write guarded by a membership test and a catch-all except):
any shape for which the Python expression raises, or whose args object does
not declare the key, leaves the payload unchanged. -/
def setArgIfKey (p : Json) (key : List Char) (v : Json) : Json :=
  match p with
  | .arr (Json.obj kvs :: rest) =>
    match lookupKv kvs argsKey with
    | some (Json.obj akvs) =>
      match lookupKv akvs key with
      | some _ =>
        .arr (Json.obj (objInsert kvs argsKey (Json.obj (objInsert akvs key v))) :: rest)
      | none => p
    | _ => p
  | _ => p

/-- The clamped progress fraction max(0, min(1, elapsed / target)). -/
def progressVal (target : Nat) (elapsed : Nat) : ℚ :=
  max 0 (min 1 ((elapsed : ℚ) / (target : ℚ)))

/-- Two-decimal formatting of the fraction, for values in the unit interval.
(CPython formats the
nearest binary double with round-half-even; the models agree on every value
the claims exercise, and no claim depends on tie rounding.) -/
def fmt2 (q : ℚ) : List Char :=
  let n := (round (q * 100) : ℤ).toNat
  natRepr (n / 100) ++ '.' ::
    (if n % 100 < 10 then '0' :: natRepr (n % 100) else natRepr (n % 100))

/-- The payload adjustment of jobs.py lines 155-177: when `target_seconds` is
truthy, overwrite a declared `progress` argument with the formatted fraction
and a declared `finish` argument with the completion flag; then overwrite a
declared `unique` argument with `f"{timestamp}_{random.random()}"`.  Each
write happens only if the argument is already declared. -/
def updatePayload (target : Option Nat) (elapsed : Nat) (timestamp : Nat)
    (rand : List Char) (p0 : Json) : Json :=
  let p1 :=
    match target with
    | some tg =>
      if tg ≠ 0 then
        let pv := progressVal tg elapsed
        let a := setArgIfKey p0 progressKey (.str (fmt2 pv))
        setArgIfKey a finishKey (.num (if (999 : ℚ) / 1000 ≤ pv then 1 else 0))
      else p0
    | none => p0
  setArgIfKey p1 uniqueKey (.str (natRepr timestamp ++ '_' :: rand))

/-- Response unwrapping of jobs.py lines 183-188: for a nonempty list take
entry 0's `data` (entry 0 itself when `data` is absent); a non-dict entry 0
makes `.get` raise, caught so `out` stays the whole response; non-lists pass
through. -/
def unwrap (resp : Json) : Json :=
  match resp with
  | .arr (e :: rest) =>
    match e with
    | .obj kvs =>
      match lookupKv kvs dataKey with
      | some d => d
      | none => e
    | _ => .arr (e :: rest)
  | other => other

/-- The completion check: the unwrapped result is a dict whose completion
field equals the string 已完成. -/
def isCompletedOut (out : Json) : Bool :=
  match out with
  | .obj kvs =>
    match lookupKv kvs completionKey with
    | some (Json.str s) => s = String.toList "已完成"
    | _ => false
  | _ => false

/-- The sleep computation of jobs.py lines 203-205: sleep the configured
interval, unless a truthy session timeout is smaller, in which case sleep
`max(30, sessiontimeout // 2)` (Python floor division). -/
def computeSleep (interval : Nat) (st : Option Nat) : Nat :=
  match st with
  | some s => if s ≠ 0 ∧ s < interval then max 30 (s / 2) else interval
  | none => interval

/-- Python `str()` of a value resolved from `M.cfg` — `"None"` when the key
was absent. -/
def pyStrOptInt : Option Int → List Char
  | none => String.toList "None"
  | some i => intRepr i

/-- The template substitution chain of jobs.py lines 139-148, in source
order. -/
def fillTemplate (tpl : List Char) (timestamp : Nat) (sesskey : List Char)
    (courseId contextInstanceId : Option Int) (videoId fsresourceid : Int)
    (timeValue : Nat) : List Char :=
  let s1 := replaceAll (String.toList "{timestamp}") (natRepr timestamp) tpl
  let s2 := replaceAll (String.toList "{sesskey}") sesskey s1
  let s3 := replaceAll (String.toList "{courseId}") (pyStrOptInt courseId) s2
  let s4 := replaceAll (String.toList "{contextInstanceId}") (pyStrOptInt contextInstanceId) s3
  let s5 := replaceAll (String.toList "{videoId}") (intRepr videoId) s4
  let s6 := replaceAll (String.toList "{fsresourceid}") (intRepr fsresourceid) s5
  replaceAll (String.toList "{time}") (natRepr timeValue) s6

/-- Resolved configuration of one `WatchVideoJob` run at loop entry. -/
structure JobCfg where
  videoId : Int
  durationSeconds : Nat
  intervalSeconds : Nat
  payloadTemplate : Option (List Char)
  targetSeconds : Option Nat
  sesskey : List Char
  courseId : Option Int
  contextInstanceId : Option Int
  fsresourceid : Int
  sessiontimeout : Option Nat

/-- Environment of one loop iteration: `int(time.time()*1000)`, the random
component of the uniqueness token, the network call duration in seconds, and
the parsed response of `post_service` (or its raised exception). -/
structure IterInput where
  timestamp : Nat
  rand : List Char
  callDur : ℚ
  response : Except Unit Json

/-- Terminal state of one run. -/
inductive TState where
  | completed : TState
  | aborted : TState
  | timedOut : TState
  | ranOut : TState
  | noSesskey : TState
deriving DecidableEq

/-- Result of one run: terminal state, payloads passed to `post_service` in
order, and the number of loop iterations executed. -/
structure RunResult where
  state : TState
  submitted : List Json
  calls : Nat

/-- Whole elapsed seconds at elapsed time `t ≥ 0` (Python int truncation). -/
def iterElapsed (t : ℚ) : Nat := (⌊t⌋).toNat

/-- The substituted template text of one iteration
(`time_value = min(elapsed, int(duration_seconds))`). -/
def iterPayloadStr (cfg : JobCfg) (tpl : List Char) (t : ℚ) (inp : IterInput) : List Char :=
  fillTemplate tpl inp.timestamp cfg.sesskey cfg.courseId cfg.contextInstanceId
    cfg.videoId cfg.fsresourceid (min (iterElapsed t) cfg.durationSeconds)

/-- The `while time.time() < end` loop of jobs.py lines 123-206.  `t` is the
elapsed time at the top of the iteration; `ranOut` marks exhaustion of the
supplied iteration environments (a model artifact — the real loop would keep
iterating).  A falsy template (absent or empty) gives the diagnostic
iteration that only sleeps the interval; a substitution result that fails to
parse breaks the run (`aborted`); a raised `post_service` exception is
reported and the loop continues; a response unwrapping to a dict whose
`completion` equals "已完成" breaks the run (`completed`); otherwise the loop
sleeps `computeSleep` and continues. -/
def runLoop (cfg : JobCfg) : List IterInput → ℚ → RunResult
  | inps, t =>
    if (cfg.durationSeconds : ℚ) ≤ t then ⟨.timedOut, [], 0⟩
    else
      match inps with
      | [] => ⟨.ranOut, [], 0⟩
      | inp :: rest =>
        match cfg.payloadTemplate with
        | none =>
          let r := runLoop cfg rest (t + (cfg.intervalSeconds : ℚ))
          ⟨r.state, r.submitted, r.calls + 1⟩
        | some tpl =>
          if tpl = [] then
            let r := runLoop cfg rest (t + (cfg.intervalSeconds : ℚ))
            ⟨r.state, r.submitted, r.calls + 1⟩
          else
            match jsonLoads (iterPayloadStr cfg tpl t inp) with
            | .error _ => ⟨.aborted, [], 1⟩
            | .ok p0 =>
              let p := updatePayload cfg.targetSeconds (iterElapsed t) inp.timestamp
                inp.rand p0
              let sleep : ℚ := (computeSleep cfg.intervalSeconds cfg.sessiontimeout : ℚ)
              match inp.response with
              | .error _ =>
                let r := runLoop cfg rest (t + inp.callDur + sleep)
                ⟨r.state, p :: r.submitted, r.calls + 1⟩
              | .ok resp =>
                if isCompletedOut (unwrap resp) then ⟨.completed, [p], 1⟩
                else
                  let r := runLoop cfg rest (t + inp.callDur + sleep)
                  ⟨r.state, p :: r.submitted, r.calls + 1⟩

/-- The resolution tail of jobs.py lines 112-121 and loop entry: a falsy
`sesskey` aborts before any call; a falsy `fsresourceid` falls back to the
caller-supplied `video_id`; then the polling loop starts at elapsed time 0.
A missing `courseId` or `contextInstanceId` causes no abort — the values are
carried into template substitution as Python `None`. -/
def runJob (sesskey : Option (List Char)) (videoId : Int)
    (durationSeconds intervalSeconds : Nat) (tpl : Option (List Char))
    (target : Option Nat) (courseId contextInstanceId : Option Int)
    (fsres : Option Int) (stime : Option Nat) (inps : List IterInput) : RunResult :=
  match sesskey with
  | none => ⟨.noSesskey, [], 0⟩
  | some sk =>
    if sk = [] then ⟨.noSesskey, [], 0⟩
    else
      let fsid :=
        match fsres with
        | some f => if f = 0 then videoId else f
        | none => videoId
      runLoop ⟨videoId, durationSeconds, intervalSeconds, tpl, target, sk,
               courseId, contextInstanceId, fsid, stime⟩ inps 0

/-- Submission timeline abstraction of the loop for the temporal claim: the
k-th submission happens at time `t0`; the next happens after the call
duration `d` plus the computed sleep, exactly as `runLoop` advances `t`. -/
def submissionTimes (interval : Nat) (st : Option Nat) : ℚ → List ℚ → List ℚ
  | _, [] => []
  | t0, d :: ds =>
    t0 :: submissionTimes interval st (t0 + d + (computeSleep interval st : ℚ)) ds

/-! ### Batch driver: `WatchCourseIncompleteJob.run` (jobs.py lines 311-334)

Each list entry is the outcome of one video's `WatchVideoJob.run()`: normal
return, or an exception escaping it (e.g. the `NetworkError` re-raised by
`MoodleClient.get` during the initial page fetch at jobs.py line 81, which no
`try` in `run` or in the batch loop catches). -/

/-- Outcome of one video's `run()` as seen by the batch `for` loop. -/
inductive BatchItemResult where
  | finished : BatchItemResult
  | raisedNet (e : ReqExc) : BatchItemResult
  | raisedRuntime : BatchItemResult
deriving DecidableEq

/-- How a `WatchVideoJob.run` whose initial `self.client.get(...)` terminates
with the given outcome appears to the batch loop: a returned response lets
the run proceed (and return normally in the model), a raised exception
escapes `run` uncaught. -/
def videoItemResult : GetOutcome → BatchItemResult
  | .ok _ => .finished
  | .raised e => .raisedNet e
  | .runtimeError => .raisedRuntime

/-- Result of a batch run: number of videos whose `run()` was entered, number
of inter-item gap sleeps performed, and the exception that escaped the batch
(if any). -/
structure BatchResult where
  processed : Nat
  gapSleeps : Nat
  escaped : Option BatchItemResult
deriving DecidableEq

/-- The batch `for` loop: `job.run()` then `time.sleep(gap_seconds)`, with no
exception handling around either. -/
def batchRun : List BatchItemResult → BatchResult
  | [] => ⟨0, 0, none⟩
  | r :: rest =>
    match r with
    | .finished =>
      let b := batchRun rest
      ⟨b.processed + 1, b.gapSleeps + 1, b.escaped⟩
    | e => ⟨1, 0, some e⟩

/-! ### Theorems -/

/-- An attempt outcome that makes the retry loop of `MoodleClient.get`
continue to the next attempt: a transport exception, a retryable status, or a
status on which `raise_for_status` raises (caught by the same `except`). -/
def continuesLoop : Attempt → Bool
  | .exc => true
  | .resp s => decide (s ≠ 200) && (retryableStatus s || (decide (400 ≤ s) && decide (s < 600)))

theorem sleepShift (backoff : ℚ) (n k : Nat) :
    backoff * ((n : ℚ)) :: (List.range k).map (fun i => backoff * ((n + 1 + i : Nat) : ℚ)) =
    (List.range (k + 1)).map (fun i => backoff * ((n + i : Nat) : ℚ)) := by
  rw [List.range_succ_eq_map, List.map_cons, List.map_map]
  refine congrArg₂ List.cons (by norm_num) ?_
  refine List.map_congr_left fun a _ => ?_
  have h : n + 1 + a = n + (a + 1) := by omega
  simp [Function.comp, h]

theorem getGo_all503 (backoff : ℚ) :
    ∀ (fuel n : Nat) (last : Option ReqExc),
      getGo (fun _ => Attempt.resp 503) backoff fuel n last =
        (finishGet last,
         (List.range fuel).map (fun i => backoff * ((n + i : Nat) : ℚ)), fuel) := by
  intro fuel
  induction fuel with
  | zero => intro n last; simp [getGo]
  | succ f ih =>
    intro n last
    have h1 : ¬((503 : Nat) = 200) := by decide
    have h2 : retryableStatus 503 = true := by decide
    simp only [getGo, sleepCons, h2, if_true, if_neg h1, ih (n + 1) last]
    exact congrArg (fun l => (finishGet last, l, f + 1)) (sleepShift backoff n f)

theorem getGo_reach200 (att : Nat → Attempt) (backoff : ℚ) :
    ∀ (k fuel n : Nat) (last : Option ReqExc), k < fuel →
      (∀ i, n ≤ i → i < n + k → continuesLoop (att i) = true) →
      att (n + k) = Attempt.resp 200 →
      getGo att backoff fuel n last =
        (GetOutcome.ok 200,
         (List.range k).map (fun i => backoff * ((n + i : Nat) : ℚ)), k + 1) := by
  intro k
  induction k with
  | zero =>
    intro fuel n last hf _ h200
    match fuel, hf with
    | f + 1, _ =>
      simp only [Nat.add_zero] at h200
      simp [getGo, h200]
  | succ k ih =>
    intro fuel n last hf hcont h200
    match fuel, hf with
    | f + 1, hf =>
      have hk : k < f := by omega
      have hcn : continuesLoop (att n) = true := hcont n le_rfl (by omega)
      have hshift : ∀ (last' : Option ReqExc),
          getGo att backoff f (n + 1) last' =
            (GetOutcome.ok 200,
             (List.range k).map (fun i => backoff * ((n + 1 + i : Nat) : ℚ)), k + 1) := by
        intro last'
        refine ih f (n + 1) last' hk (fun i h₁ h₂ => hcont i (by omega) (by omega)) ?_
        have : n + 1 + k = n + (k + 1) := by omega
        rw [this]; exact h200
      cases hatt : att n with
      | exc =>
        simp only [getGo, hatt, hshift (some ReqExc.connError), sleepCons]
        exact congrArg (fun l => (GetOutcome.ok 200, l, k + 1 + 1)) (sleepShift backoff n k)
      | resp s =>
        rw [hatt] at hcn
        simp only [continuesLoop, Bool.and_eq_true, Bool.or_eq_true,
          decide_eq_true_eq] at hcn
        obtain ⟨hne, hor⟩ := hcn
        cases hr : retryableStatus s with
        | true =>
          simp only [getGo, hatt, if_neg hne, hr, if_true, hshift last, sleepCons]
          exact congrArg (fun l => (GetOutcome.ok 200, l, k + 1 + 1)) (sleepShift backoff n k)
        | false =>
          have hrange : 400 ≤ s ∧ s < 600 := by
            rcases hor with h | h
            · rw [hr] at h; cases h
            · exact h
          have hrf : ¬(retryableStatus s = true) := by simp [hr]
          simp only [getGo, hatt, if_neg hne, if_neg hrf, if_pos hrange,
            hshift (some (ReqExc.httpError s)), sleepCons]
          exact congrArg (fun l => (GetOutcome.ok 200, l, k + 1 + 1)) (sleepShift backoff n k)



/-- Claim C1: for every GET whose attempts all yield a retryable status (a
sustained 503), `MoodleClient.get` consumes exactly `max_retries` attempts,
sleeping `backoff * attemptNumber` seconds after the corresponding attempt,
and then fails with the transport failure the spec calls `NetworkError`
(here the guard `RuntimeError`, since no exception was captured); and a 200
on any attempt — after any prefix of loop-continuing attempts — is returned
immediately, consuming no further attempts. -/
theorem C1_transport_retries_then_fails_and_200_immediate :
    ∀ (maxRetries : Nat) (backoff : ℚ), 0 < maxRetries →
      (clientGet (fun _ => Attempt.resp 503) maxRetries backoff =
         (GetOutcome.runtimeError,
          (List.range maxRetries).map (fun i => backoff * ((1 + i : Nat) : ℚ)),
          maxRetries)
       ∧ isNetworkError (clientGet (fun _ => Attempt.resp 503) maxRetries backoff).1 = true)
      ∧ ∀ (att : Nat → Attempt) (k : Nat), k + 1 ≤ maxRetries →
          (∀ i, 1 ≤ i → i ≤ k → continuesLoop (att i) = true) →
          att (k + 1) = Attempt.resp 200 →
          clientGet att maxRetries backoff =
            (GetOutcome.ok 200,
             (List.range k).map (fun i => backoff * ((1 + i : Nat) : ℚ)), k + 1) := by
  intro maxRetries backoff _
  constructor
  · have h := getGo_all503 backoff maxRetries 1 none
    exact ⟨h, by rw [clientGet, h]; rfl⟩
  · intro att k hk hcont h200
    refine getGo_reach200 att backoff k maxRetries 1 none (by omega)
      (fun i h₁ h₂ => hcont i h₁ (by omega)) ?_
    rw [Nat.add_comm 1 k]
    exact h200

/-- Witness for C1: three sustained 503 attempts with the default backoff
0.8 fail after exactly 3 attempts and sleeps 0.8, 1.6, 2.4; and with a 503
followed by a 200, the 200 is returned on attempt 2. -/
theorem C1_witness :
    (clientGet (fun _ => Attempt.resp 503) 3 (4 / 5) =
       (GetOutcome.runtimeError,
        (List.range 3).map (fun i => (4 / 5 : ℚ) * ((1 + i : Nat) : ℚ)), 3))
    ∧ clientGet (fun i => if i = 1 then Attempt.resp 503 else Attempt.resp 200) 3 (4 / 5) =
       (GetOutcome.ok 200,
        (List.range 1).map (fun i => (4 / 5 : ℚ) * ((1 + i : Nat) : ℚ)), 2) := by
  have h := C1_transport_retries_then_fails_and_200_immediate 3 (4 / 5) (by decide)
  exact ⟨h.1.1,
    h.2 (fun i => if i = 1 then Attempt.resp 503 else Attempt.resp 200) 1
      (by decide) (by intro i h₁ h₂; interval_cases i <;> decide) (by decide)⟩

/-- Claim C2 evaluated at its failing input: three attempts that all return
status 404.  The claim requires an immediate non-retryable failure with no
sleeping, but `resp.raise_for_status()` raises inside the `try`, so the
`except` captures the `HTTPError`, sleeps the backoff schedule 0.8, 1.6, 2.4
and consumes all 3 attempts before re-raising. -/
theorem C2_404_is_retried_with_sleeps :
    clientGet (fun _ => Attempt.resp 404) 3 (4 / 5) =
      (GetOutcome.raised (ReqExc.httpError 404),
       [4 / 5, 8 / 5, 12 / 5], 3) := by
  norm_num [clientGet, getGo, sleepCons, retryableStatus, finishGet]

/-- Claim C3 counterexample: a batch of two videos where the first video's
initial page fetch raises a transport exception on all three attempts, so
`MoodleClient.get` re-raises it out of `WatchVideoJob.run`; the batch loop
has no exception handling, so it stops after the first video — the second is
never processed, and no inter-item gap sleep happens, while the claim
requires both videos to be processed. -/
theorem C3_counterexample :
    batchRun [videoItemResult (clientGet (fun _ => Attempt.exc) 3 (4 / 5)).1,
              BatchItemResult.finished] =
      ⟨1, 0, some (BatchItemResult.raisedNet ReqExc.connError)⟩
    ∧ (batchRun [videoItemResult (clientGet (fun _ => Attempt.exc) 3 (4 / 5)).1,
                 BatchItemResult.finished]).processed ≠ 2 := by
  constructor
  · rfl
  · intro h
    have : (1 : Nat) = 2 := by
      calc (1 : Nat)
          = (batchRun [videoItemResult (clientGet (fun _ => Attempt.exc) 3 (4 / 5)).1,
                       BatchItemResult.finished]).processed := rfl
        _ = 2 := h
    exact absurd this (by decide)

/-- Claim C3 amended: the batch proceeds to the next video (after the fixed
inter-item gap sleep) exactly when a video's run returns normally — which
includes runs that report failures internally and return; but an exception
that escapes a video's run, such as the transport failure re-raised during
the initial page fetch, propagates out of the batch loop and aborts the
whole batch, leaving the remaining videos unprocessed. -/
theorem C3_amended_batch_continuation :
    (∀ rs : List BatchItemResult, (∀ r ∈ rs, r = BatchItemResult.finished) →
        batchRun rs = ⟨rs.length, rs.length, none⟩)
    ∧ ∀ (pre : List BatchItemResult) (e : BatchItemResult) (post : List BatchItemResult),
        (∀ r ∈ pre, r = BatchItemResult.finished) → e ≠ BatchItemResult.finished →
        batchRun (pre ++ e :: post) = ⟨pre.length + 1, pre.length, some e⟩ := by
  constructor
  · intro rs h
    induction rs with
    | nil => rfl
    | cons r rest ih =>
      have hr : r = BatchItemResult.finished := h r (by simp)
      subst hr
      simp [batchRun, ih (fun x hx => h x (by simp [hx]))]
  · intro pre e post hpre he
    induction pre with
    | nil =>
      cases e with
      | finished => exact absurd rfl he
      | raisedNet e' => rfl
      | raisedRuntime => rfl
    | cons r rest ih =>
      have hr : r = BatchItemResult.finished := hpre r (by simp)
      subst hr
      simp [batchRun, ih (fun x hx => hpre x (by simp [hx]))]

/-- Witness for C3 amended: two normal runs are both processed with two gap
sleeps; a batch whose second run raises stops with the first processed and
one gap sleep. -/
theorem C3_amended_witness :
    batchRun [BatchItemResult.finished, BatchItemResult.finished] = ⟨2, 2, none⟩
    ∧ batchRun [BatchItemResult.finished, BatchItemResult.raisedRuntime,
                BatchItemResult.finished] = ⟨2, 1, some BatchItemResult.raisedRuntime⟩ := by
  constructor
  · exact C3_amended_batch_continuation.1
      [BatchItemResult.finished, BatchItemResult.finished] (by decide)
  · have h := C3_amended_batch_continuation.2 [BatchItemResult.finished]
      BatchItemResult.raisedRuntime [BatchItemResult.finished] (by decide) (by decide)
    simpa using h

/-- The code's per-iteration sleep is never below `min(interval, st // 2)`
(Python floor division). -/
theorem computeSleep_lb (interval st : Nat) :
    min interval (st / 2) ≤ computeSleep interval (some st) := by
  have h : computeSleep interval (some st) =
      if st ≠ 0 ∧ st < interval then max 30 (st / 2) else interval := rfl
  rw [h]
  split
  · exact le_trans (min_le_right _ _) (le_max_right _ _)
  · exact min_le_left _ _

/-- Consecutive submission times in the loop's timeline differ by at least
`min(interval, st // 2)`: each step advances by a nonnegative call duration
plus the computed sleep. -/
theorem submission_gaps (interval st : Nat) :
    ∀ (ds : List ℚ) (t0 : ℚ), (∀ d ∈ ds, (0 : ℚ) ≤ d) →
      List.Chain' (fun a b => a + ((min interval (st / 2) : Nat) : ℚ) ≤ b)
        (submissionTimes interval (some st) t0 ds) := by
  intro ds
  induction ds with
  | nil => intro t0 _; simp [submissionTimes]
  | cons d ds ih =>
    intro t0 h
    rw [submissionTimes]
    refine List.chain'_cons'.mpr ⟨?_, ih _ (fun x hx => h x (by simp [hx]))⟩
    intro y hy
    cases ds with
    | nil => simp [submissionTimes] at hy
    | cons d2 ds2 =>
      rw [submissionTimes] at hy
      simp only [List.head?_cons, Option.mem_def, Option.some.injEq] at hy
      subst hy
      have hd : (0 : ℚ) ≤ d := h d (by simp)
      have hs : ((min interval (st / 2) : Nat) : ℚ) ≤
          ((computeSleep interval (some st) : Nat) : ℚ) := by
        exact_mod_cast computeSleep_lb interval st
      linarith

/-- Claim C4 counterexample: with poll interval 200 s and resolved session
timeout 101 s, the code sleeps `max(30, 101 // 2) = 50` seconds — strictly
less than the claimed minimum gap `min(200, 101/2) = 50.5`, and different
from the claimed sleep `max(30, 101/2) = 50.5`.  The claim's exact division
does not match the source's floor division for odd timeouts. -/
theorem C4_counterexample :
    ((computeSleep 200 (some 101) : ℚ) < min (200 : ℚ) ((101 : ℚ) / 2))
    ∧ (computeSleep 200 (some 101) : ℚ) ≠ max (30 : ℚ) ((101 : ℚ) / 2) := by
  have h : computeSleep 200 (some 101) = 50 := rfl
  rw [h]
  constructor
  · norm_num
  · norm_num

/-- Claim C4 amended: with floor division — for every configuration with a
resolved positive session timeout, when the configured interval exceeds the
timeout the per-iteration sleep is `max(30, sessionTimeout // 2)` seconds;
the sleep is never below `min(interval, sessionTimeout // 2)`; and along any
run's timeline, consecutive RPC submissions for the resource are at least
`min(interval, sessionTimeout // 2)` seconds apart. -/
theorem C4_amended_submission_spacing :
    ∀ (interval st : Nat), 0 < st →
      (st < interval → computeSleep interval (some st) = max 30 (st / 2))
      ∧ min interval (st / 2) ≤ computeSleep interval (some st)
      ∧ ∀ (t0 : ℚ) (ds : List ℚ), (∀ d ∈ ds, (0 : ℚ) ≤ d) →
          List.Chain' (fun a b => a + ((min interval (st / 2) : Nat) : ℚ) ≤ b)
            (submissionTimes interval (some st) t0 ds) := by
  intro interval st hst
  refine ⟨?_, computeSleep_lb interval st, fun t0 ds h => submission_gaps interval st ds t0 h⟩
  intro hlt
  have h : computeSleep interval (some st) =
      if st ≠ 0 ∧ st < interval then max 30 (st / 2) else interval := rfl
  rw [h, if_pos ⟨by omega, hlt⟩]

/-- Witness for C4 amended: interval 200, timeout 101, two submissions with
call durations 0 and 1. -/
theorem C4_amended_witness :
    (101 < 200 → computeSleep 200 (some 101) = max 30 (101 / 2))
    ∧ min 200 (101 / 2) ≤ computeSleep 200 (some 101)
    ∧ ∀ (t0 : ℚ) (ds : List ℚ), (∀ d ∈ ds, (0 : ℚ) ≤ d) →
        List.Chain' (fun a b => a + ((min 200 (101 / 2) : Nat) : ℚ) ≤ b)
          (submissionTimes 200 (some 101) t0 ds) :=
  C4_amended_submission_spacing 200 101 (by decide)


/-- A `try/except` whose handler succeeds never raises. -/
theorem pyTry_ok_isOk {α : Type} (x y : Py α) (hy : y.isOk = true) :
    (pyTry x y).isOk = true := by
  cases x with
  | ok v => rfl
  | error e => exact hy

/-- Sequencing two non-raising computations never raises. -/
theorem bind_isOk {α β : Type} (x : Py α) (g : α → Py β) (hx : x.isOk = true)
    (h : ∀ a, (g a).isOk = true) : (x >>= g).isOk = true := by
  cases x with
  | ok v => exact h v
  | error e => exact absurd hx (by simp [Except.isOk, Except.toBool])

/-- Claim C6: on every input string — including malformed near-JSON blobs —
the Context Extractor operations `parse_m_cfg`, `extract_fsresource_info` and
`extract_sesskey` terminate with a value (extracted fields or an
empty/absent result) and never raise: every fallible operation (`json.loads`)
in their bodies sits under a `try/except` that supplies the fallback. -/
theorem C6_extractors_never_raise :
    ∀ html : List Char,
      (parse_m_cfg html).isOk = true
      ∧ (extract_fsresource_info html).isOk = true
      ∧ (extract_sesskey html).isOk = true := by
  intro html
  refine ⟨?_, ?_, rfl⟩
  · unfold parse_m_cfg
    cases mcfgRaw html with
    | none => rfl
    | some raw => exact pyTry_ok_isOk _ _ (pyTry_ok_isOk _ _ rfl)
  · have hs : (structuredPhase html).isOk = true := by
      unfold structuredPhase
      cases playerdataRaw html with
      | none => rfl
      | some raw => exact pyTry_ok_isOk _ _ rfl
    unfold extract_fsresource_info
    cases h : structuredPhase html with
    | ok v => rfl
    | error e => rw [h] at hs; exact absurd hs (by simp [Except.isOk, Except.toBool])

/-- The resource id obtained by structured parsing of the `playerdata`
configuration object alone — the claim's "structured" value. -/
def structuredFsid (html : List Char) : Option Int :=
  match structuredPhase html with
  | .ok i => i.fsresourceid
  | .error _ => none

/-- The resource id `extract_fsresource_info` actually returns. -/
def extractedFsid (html : List Char) : Option Int :=
  match extract_fsresource_info html with
  | .ok i => i.fsresourceid
  | .error _ => none

/-- Concrete page for C5: `playerdata = {'fsresourceid': '4821'}; cmid = 99`.
Structured parsing succeeds (after quote normalization) with id 4821, but
the unconditional pattern loop later matches `cmid = 99`. -/
def htmlC5 : List Char :=
  (String.toList "playerdata = ") ++ [obr] ++
  [sq] ++ (String.toList "fsresourceid") ++ [sq] ++ (String.toList ": ") ++
  [sq] ++ (String.toList "4821") ++ [sq] ++ [cbr] ++
  (String.toList "; cmid = 99")

theorem durOverride_fsid (html : List Char) (i : FsInfo) :
    (durOverride html i).fsresourceid = i.fsresourceid := by
  unfold durOverride
  cases durFromPatterns html <;> rfl

theorem nameOverride_fsid (html : List Char) (i : FsInfo) :
    (nameOverride html i).fsresourceid = i.fsresourceid := by
  unfold nameOverride
  cases searchAt h2At html <;> rfl

theorem fsidOverride_fsid (html : List Char) (i : FsInfo) :
    (fsidOverride html i).fsresourceid =
      match fsidFromPatterns html with
      | some v => some (v : Int)
      | none => i.fsresourceid := by
  unfold fsidOverride
  cases fsidFromPatterns html <;> rfl

/-- Claim C5 counterexample: on `htmlC5`, structured parsing of `playerdata`
successfully obtains resource id 4821, yet the returned id is 99 — the
line-oriented pattern search ran unconditionally afterwards and its `cmid`
pattern overwrote the structured value, so the structured value is not used
in preference. -/
theorem C5_counterexample :
    structuredFsid htmlC5 = some 4821
    ∧ extractedFsid htmlC5 = some 99
    ∧ extractedFsid htmlC5 ≠ structuredFsid htmlC5 := by
  refine ⟨rfl, rfl, ?_⟩
  intro h
  have h1 : (some (99 : Int)) = some 4821 := by
    calc (some (99 : Int)) = extractedFsid htmlC5 := rfl
      _ = structuredFsid htmlC5 := h
      _ = some 4821 := rfl
  exact absurd h1 (by decide)

/-- Claim C5 amended: the pattern search runs unconditionally after
structured parsing, its candidate patterns tried in fixed order with the
first match taken; a successful match overwrites the structured value, and
the structured value is used only when no pattern matches anywhere in the
input, so the extracted value is deterministic for identical input. -/
theorem C5_amended_pattern_overwrites_structured :
    ∀ (html : List Char) (i : FsInfo), extract_fsresource_info html = .ok i →
      i.fsresourceid =
        match fsidFromPatterns html with
        | some v => some (v : Int)
        | none => structuredFsid html := by
  intro html i h
  unfold extract_fsresource_info at h
  cases hs : structuredPhase html with
  | error e => rw [hs] at h; cases h
  | ok info1 =>
    rw [hs] at h
    injection h with h'
    have hpp : (patternPhase html info1).fsresourceid =
        match fsidFromPatterns html with
        | some v => some (v : Int)
        | none => info1.fsresourceid := by
      unfold patternPhase
      rw [nameOverride_fsid, durOverride_fsid, fsidOverride_fsid]
    unfold structuredFsid
    rw [hs, ← h', hpp]

/-- Witness for C5 amended, at the C5 page. -/
theorem C5_amended_witness :
    (⟨some 99, none, none, none⟩ : FsInfo).fsresourceid =
      match fsidFromPatterns htmlC5 with
      | some v => some (v : Int)
      | none => structuredFsid htmlC5 :=
  C5_amended_pattern_overwrites_structured htmlC5 ⟨some 99, none, none, none⟩ rfl

/-- Concrete page for C7: the spec's scenario HTML
`playerdata = {fsresourceid: 4821, duration: 600, sesskey: 'abc123'}`. -/
def htmlC7 : List Char :=
  (String.toList "playerdata = ") ++ [obr] ++
  (String.toList "fsresourceid: 4821, duration: 600, sesskey: ") ++
  [sq] ++ (String.toList "abc123") ++ [sq] ++ [cbr]

/-- Claim C7: on the scenario HTML, context extraction yields resource id
4821 and target duration 600 (via `extract_fsresource_info` — here through
the pattern fallback, since the unquoted-key literal is not strict JSON and
carries no trailing `;`), `M.cfg` parsing yields the empty object (so the
engine falls back to `extract_sesskey`), and the security token resolves to
"abc123". -/
theorem C7_scenario_extraction :
    parse_m_cfg htmlC7 = .ok (Json.obj [])
    ∧ extract_fsresource_info htmlC7 = .ok ⟨some 4821, some 600, none, none⟩
    ∧ extract_sesskey htmlC7 = .ok (some (String.toList "abc123")) :=
  ⟨rfl, rfl, rfl⟩

/-- Loop-unfolding helper: an iteration inside the time budget whose
templated call parses, whose RPC call succeeds, and whose unwrapped result
is a mapping with `completion = "已完成"`, ends the run as `completed` with
exactly that submission, regardless of the remaining inputs and budget. -/
theorem runLoop_completes (cfg : JobCfg) (tpl : List Char) (t : ℚ) (inp : IterInput)
    (rest : List IterInput) (p r : Json)
    (htpl : cfg.payloadTemplate = some tpl) (htne : tpl ≠ [])
    (ht : t < (cfg.durationSeconds : ℚ))
    (hjson : jsonLoads (iterPayloadStr cfg tpl t inp) = .ok p)
    (hresp : inp.response = .ok r)
    (hcomp : isCompletedOut (unwrap r) = true) :
    runLoop cfg (inp :: rest) t =
      ⟨.completed,
       [updatePayload cfg.targetSeconds (iterElapsed t) inp.timestamp inp.rand p],
       1⟩ := by
  simp only [runLoop, htpl, hjson, hresp, hcomp, if_neg (not_le.mpr ht),
    if_neg htne, if_true]

/-- An iteration whose substituted template fails to parse as JSON breaks the
loop at once: the run aborts, nothing is submitted, later inputs are
untouched. -/
theorem runLoop_aborts (cfg : JobCfg) (tpl : List Char) (t : ℚ) (inp : IterInput)
    (rest : List IterInput) (e : PyExc)
    (htpl : cfg.payloadTemplate = some tpl) (htne : tpl ≠ [])
    (ht : t < (cfg.durationSeconds : ℚ))
    (hjson : jsonLoads (iterPayloadStr cfg tpl t inp) = .error e) :
    runLoop cfg (inp :: rest) t = ⟨.aborted, [], 1⟩ := by
  simp only [runLoop, htpl, hjson, if_neg (not_le.mpr ht), if_neg htne]

/-- Claim C8: in any iteration of the polling loop — at any elapsed time `t`
still inside the time budget, with any further iterations pending — if the
templated call parses, the RPC call succeeds, and the unwrapped result is a
mapping whose `completion` field equals "已完成", then the run transitions to
`completed` on that same iteration: exactly this iteration's submission is
made, no later iteration input is consumed, and the remaining time budget is
irrelevant. -/
theorem C8_completion_stops_iteration :
    ∀ (cfg : JobCfg) (tpl : List Char) (t : ℚ) (inp : IterInput)
      (rest : List IterInput) (p r : Json),
      cfg.payloadTemplate = some tpl → tpl ≠ [] →
      t < (cfg.durationSeconds : ℚ) →
      jsonLoads (iterPayloadStr cfg tpl t inp) = .ok p →
      inp.response = .ok r →
      isCompletedOut (unwrap r) = true →
      runLoop cfg (inp :: rest) t =
        ⟨.completed,
         [updatePayload cfg.targetSeconds (iterElapsed t) inp.timestamp inp.rand p],
         1⟩ :=
  fun cfg tpl t inp rest p r htpl htne ht hjson hresp hcomp =>
    runLoop_completes cfg tpl t inp rest p r htpl htne ht hjson hresp hcomp

/-- Envelope used by the C8 witness: `[{"a":0}]`. -/
def tplMinimal : List Char := '[' :: obr :: dq :: 'a' :: dq :: ':' :: '0' :: cbr :: [']']

/-- Parsed form of `tplMinimal`. -/
def pMinimal : Json := Json.arr [Json.obj [(['a'], Json.num 0)]]

/-- A successful RPC response whose entry 0 `data` carries
`completion = "已完成"`. -/
def respDone : Json :=
  Json.arr [Json.obj [(dataKey, Json.obj [(completionKey, Json.str (String.toList "已完成"))])]]

/-- Iteration environment used by the C8 and C10 witnesses. -/
def inpDone : IterInput := ⟨1234, ['r'], 0, .ok respDone⟩

/-- Job configuration used by the C8 witness. -/
def cfgC8 : JobCfg :=
  ⟨7, 300, 60, some tplMinimal, none, String.toList "sk", none, none, 7, none⟩

/-- Witness for C8: with 300 s of budget left, the completion response stops
the loop after its single submission. -/
theorem C8_witness :
    runLoop cfgC8 [inpDone] 0 =
      ⟨.completed,
       [updatePayload cfgC8.targetSeconds (iterElapsed 0) inpDone.timestamp
          inpDone.rand pMinimal],
       1⟩ :=
  C8_completion_stops_iteration cfgC8 tplMinimal 0 inpDone [] pMinimal respDone
    rfl (by decide) (by norm_num [cfgC8]) rfl rfl rfl

theorem lookupKv_objInsert (kvs : List (List Char × Json)) (k : List Char) (v : Json)
    (k' : List Char) :
    lookupKv (objInsert kvs k v) k' = if k = k' then some v else lookupKv kvs k' := by
  induction kvs with
  | nil => by_cases h : k = k' <;> simp [objInsert, lookupKv, h]
  | cons kv rest ih =>
    obtain ⟨k2, v2⟩ := kv
    by_cases h2 : k2 = k
    · subst h2
      by_cases h : k2 = k' <;> simp [objInsert, lookupKv, h]
    · by_cases h : k2 = k'
      · subst h
        have hk : ¬k = k2 := fun hh => h2 hh.symm
        simp [objInsert, lookupKv, h2, hk]
      · simp [objInsert, lookupKv, h2, h, ih]

theorem objInsert_keys (kvs : List (List Char × Json)) (k : List Char) (v w : Json)
    (h : lookupKv kvs k = some w) :
    (objInsert kvs k v).map Prod.fst = kvs.map Prod.fst := by
  induction kvs with
  | nil => simp [lookupKv] at h
  | cons kv rest ih =>
    obtain ⟨k2, v2⟩ := kv
    by_cases h2 : k2 = k
    · subst h2; simp [objInsert]
    · simp only [lookupKv, if_neg h2] at h
      simp [objInsert, h2, ih h]

/-- A field the template does not declare is never written: the update is the
identity. -/
theorem setArgIfKey_absent (p : Json) (key : List Char) (v : Json)
    (h : argLookup p key = none) : setArgIfKey p key v = p := by
  cases p with
  | arr xs =>
    cases xs with
    | nil => rfl
    | cons e rest =>
      cases e with
      | obj kvs =>
        cases hk : lookupKv kvs argsKey with
        | none => simp [setArgIfKey, hk]
        | some j =>
          cases j with
          | obj akvs =>
            have h' : lookupKv akvs key = none := by
              simpa [argLookup, hk] using h
            simp [setArgIfKey, hk, h']
          | null => simp [setArgIfKey, hk]
          | bool b => simp [setArgIfKey, hk]
          | num n => simp [setArgIfKey, hk]
          | str s => simp [setArgIfKey, hk]
          | arr ys => simp [setArgIfKey, hk]
      | null => rfl
      | bool b => rfl
      | num n => rfl
      | str s => rfl
      | arr ys => rfl
  | null => rfl
  | bool b => rfl
  | num n => rfl
  | str s => rfl
  | obj kvs => rfl

/-- Writing a declared field never adds or removes argument names. -/
theorem setArgIfKey_keys (p : Json) (key : List Char) (v : Json) :
    argKeys (setArgIfKey p key v) = argKeys p := by
  cases p with
  | arr xs =>
    cases xs with
    | nil => rfl
    | cons e rest =>
      cases e with
      | obj kvs =>
        cases hk : lookupKv kvs argsKey with
        | none => simp [setArgIfKey, hk]
        | some j =>
          cases j with
          | obj akvs =>
            cases hl : lookupKv akvs key with
            | none => simp [setArgIfKey, hk, hl]
            | some w =>
              simp only [setArgIfKey, hk, hl, argKeys]
              rw [lookupKv_objInsert]
              simp [objInsert_keys akvs key v w hl]
          | null => simp [setArgIfKey, hk]
          | bool b => simp [setArgIfKey, hk]
          | num n => simp [setArgIfKey, hk]
          | str s => simp [setArgIfKey, hk]
          | arr ys => simp [setArgIfKey, hk]
      | null => rfl
      | bool b => rfl
      | num n => rfl
      | str s => rfl
      | arr ys => rfl
  | null => rfl
  | bool b => rfl
  | num n => rfl
  | str s => rfl
  | obj kvs => rfl

/-- Writing a declared field leaves every other argument's value unchanged. -/
theorem setArgIfKey_other (p : Json) (key : List Char) (v : Json) (k : List Char)
    (hne : k ≠ key) :
    argLookup (setArgIfKey p key v) k = argLookup p k := by
  cases p with
  | arr xs =>
    cases xs with
    | nil => rfl
    | cons e rest =>
      cases e with
      | obj kvs =>
        cases hk : lookupKv kvs argsKey with
        | none => simp [setArgIfKey, hk]
        | some j =>
          cases j with
          | obj akvs =>
            cases hl : lookupKv akvs key with
            | none => simp [setArgIfKey, hk, hl]
            | some w =>
              simp only [setArgIfKey, hk, hl, argLookup]
              rw [lookupKv_objInsert]
              have hkey : ¬key = k := fun hh => hne hh.symm
              simp [lookupKv_objInsert, hkey, hk]
          | null => simp [setArgIfKey, hk]
          | bool b => simp [setArgIfKey, hk]
          | num n => simp [setArgIfKey, hk]
          | str s => simp [setArgIfKey, hk]
          | arr ys => simp [setArgIfKey, hk]
      | null => rfl
      | bool b => rfl
      | num n => rfl
      | str s => rfl
      | arr ys => rfl
  | null => rfl
  | bool b => rfl
  | num n => rfl
  | str s => rfl
  | obj kvs => rfl

/-- Envelope for the C9 counterexample: declares `finish` (set to 0) but no
`progress` and no `unique` argument. -/
def pC9 : Json :=
  Json.arr [Json.obj [(String.toList "index", Json.num 0),
                      (argsKey, Json.obj [(finishKey, Json.num 0)])]]

/-- The envelope `pC9` after the adjustment at elapsed 200 of target 100. -/
def pC9after : Json :=
  Json.arr [Json.obj [(String.toList "index", Json.num 0),
                      (argsKey, Json.obj [(finishKey, Json.num 1)])]]

theorem updatePayload_softens (tg : Nat) (htg : tg ≠ 0) (elapsed timestamp : Nat)
    (rand : List Char) (p : Json) :
    updatePayload (some tg) elapsed timestamp rand p =
      setArgIfKey
        (setArgIfKey
          (setArgIfKey p progressKey (Json.str (fmt2 (progressVal tg elapsed))))
          finishKey
          (Json.num (if (999 : ℚ) / 1000 ≤ progressVal tg elapsed then 1 else 0)))
        uniqueKey (Json.str (natRepr timestamp ++ '_' :: rand)) := by
  simp only [updatePayload, if_pos htg]

/-- Claim C9 counterexample: a template with no declared `progress` argument
but a declared `finish: 0`, polled past its target duration (elapsed 200 of
100), has its envelope changed — `finish` is overwritten to 1 — so "a
template with no declared progress argument leaves the envelope unchanged"
is false. -/
theorem C9_counterexample :
    argLookup pC9 progressKey = none
    ∧ argLookup (updatePayload (some 100) 200 7 ['r'] pC9) finishKey = some (Json.num 1)
    ∧ argLookup pC9 finishKey = some (Json.num 0)
    ∧ updatePayload (some 100) 200 7 ['r'] pC9 ≠ pC9 := by
  have hpv : progressVal 100 200 = 1 := by
    unfold progressVal
    norm_num
  have hfin : (999 : ℚ) / 1000 ≤ progressVal 100 200 := by rw [hpv]; norm_num
  have hup : updatePayload (some 100) 200 7 ['r'] pC9 = pC9after := by
    rw [updatePayload_softens 100 (by decide) 200 7 ['r'] pC9]
    rw [setArgIfKey_absent pC9 progressKey _ rfl]
    rw [if_pos hfin]
    rfl
  refine ⟨rfl, ?_, rfl, ?_⟩
  · rw [hup]; rfl
  · rw [hup]
    intro heq
    have h2 : some (Json.num 1) = some (Json.num 0) := by
      calc some (Json.num 1) = argLookup pC9after finishKey := rfl
        _ = argLookup pC9 finishKey := by rw [heq]
        _ = some (Json.num 0) := rfl
    injection h2 with h3
    injection h3 with h4
    exact absurd h4 (by decide)

/-- Claim C9 amended: in every polling iteration the engine overwrites the
`progress`, `finish` and `unique` fields of the parsed envelope's args only
when the template already declares them, never adds an argument the template
did not declare, and leaves every other argument's value unchanged; a
template that declares none of the three leaves the envelope unchanged
beyond placeholder substitution, and the call proceeds as templated. -/
theorem C9_amended_only_declared_fields :
    ∀ (target : Option Nat) (elapsed timestamp : Nat) (rand : List Char) (p : Json),
      argKeys (updatePayload target elapsed timestamp rand p) = argKeys p
      ∧ (∀ k : List Char, k ≠ progressKey → k ≠ finishKey → k ≠ uniqueKey →
          argLookup (updatePayload target elapsed timestamp rand p) k = argLookup p k)
      ∧ (argLookup p progressKey = none → argLookup p finishKey = none →
         argLookup p uniqueKey = none →
         updatePayload target elapsed timestamp rand p = p) := by
  intro target elapsed timestamp rand p
  cases target with
  | none =>
    exact ⟨setArgIfKey_keys _ _ _,
           fun k _ _ hku => setArgIfKey_other _ _ _ _ hku,
           fun _ _ hu => setArgIfKey_absent _ _ _ hu⟩
  | some tg =>
    by_cases htg : tg = 0
    · subst htg
      exact ⟨setArgIfKey_keys _ _ _,
             fun k _ _ hku => setArgIfKey_other _ _ _ _ hku,
             fun _ _ hu => setArgIfKey_absent _ _ _ hu⟩
    · rw [updatePayload_softens tg htg elapsed timestamp rand p]
      refine ⟨?_, ?_, ?_⟩
      · rw [setArgIfKey_keys, setArgIfKey_keys, setArgIfKey_keys]
      · intro k hkp hkf hku
        rw [setArgIfKey_other _ _ _ _ hku, setArgIfKey_other _ _ _ _ hkf,
          setArgIfKey_other _ _ _ _ hkp]
      · intro hp hf hu
        rw [setArgIfKey_absent _ _ _ hp, setArgIfKey_absent _ _ _ hf,
          setArgIfKey_absent _ _ _ hu]

/-- Witness for C9 amended: at the counterexample input the argument-name
set is preserved and an undeclared foreign field is untouched; and an
envelope declaring none of the three fields passes through unchanged. -/
theorem C9_amended_witness :
    argKeys (updatePayload (some 100) 200 7 ['r'] pC9) = argKeys pC9
    ∧ argLookup (updatePayload (some 100) 200 7 ['r'] pC9) (String.toList "cmi") =
        argLookup pC9 (String.toList "cmi")
    ∧ updatePayload none 0 0 [] pMinimal = pMinimal :=
  ⟨(C9_amended_only_declared_fields (some 100) 200 7 ['r'] pC9).1,
   (C9_amended_only_declared_fields (some 100) 200 7 ['r'] pC9).2.1
     (String.toList "cmi") (by decide) (by decide) (by decide),
   (C9_amended_only_declared_fields none 0 0 [] pMinimal).2.2 rfl rfl rfl⟩

/-- A double-quoted JSON string piece. -/
def jqs (s : String) : List Char := dq :: s.toList ++ [dq]

/-- C10 template with quoted placeholders:
`[{"index":0,"methodname":"m","args":{"courseid":"{courseId}","ctx":"{contextInstanceId}"}}]`. -/
def tplC10q : List Char :=
  '[' :: obr :: jqs "index" ++ ':' :: '0' :: ',' :: jqs "methodname" ++ ':' :: jqs "m" ++
  ',' :: jqs "args" ++ ':' :: obr ::
    (jqs "courseid" ++ ':' :: dq :: (String.toList "{courseId}") ++ [dq]) ++
    ',' :: (jqs "ctx" ++ ':' :: dq :: (String.toList "{contextInstanceId}") ++ [dq]) ++
  cbr :: cbr :: [']']

/-- C10 template with an unquoted placeholder:
`[{"index":0,"methodname":"m","args":{"courseid":{courseId}}}]`. -/
def tplC10u : List Char :=
  '[' :: obr :: jqs "index" ++ ':' :: '0' :: ',' :: jqs "methodname" ++ ':' :: jqs "m" ++
  ',' :: jqs "args" ++ ':' :: obr ::
    (jqs "courseid" ++ ':' :: (String.toList "{courseId}")) ++
  cbr :: cbr :: [']']

/-- The quoted C10 template after substitution with an unresolved course id
and context instance id, parsed: both fields carry the literal string
"None". -/
def pC10 : Json :=
  Json.arr [Json.obj
    [(String.toList "index", Json.num 0),
     (String.toList "methodname", Json.str ['m']),
     (argsKey, Json.obj
       [(String.toList "courseid", Json.str (String.toList "None")),
        (String.toList "ctx", Json.str (String.toList "None"))])]]

/-- Claim C10: when `M.cfg` yields no course id and no context instance id,
the run does not abort at the resolving step — with a resolved sesskey it
enters the loop, substituting the literal four-character string "None" for
the `{courseId}` and `{contextInstanceId}` placeholders.  With a template
that quotes the placeholders the submission proceeds carrying "None" as the
field values (and here completes); with an unquoted placeholder the
substituted text `courseid:None` is not JSON, so template parsing fails and
the run aborts. -/
theorem C10_missing_mcfg_substitutes_None :
    runJob (some (String.toList "sk")) 7 300 60 (some tplC10q) none none none (some 7) none
        [inpDone] = ⟨.completed, [pC10], 1⟩
    ∧ runJob (some (String.toList "sk")) 7 300 60 (some tplC10u) none none none (some 7) none
        [inpDone] = ⟨.aborted, [], 1⟩
    ∧ argLookup pC10 (String.toList "courseid") = some (Json.str (String.toList "None"))
    ∧ argLookup pC10 (String.toList "ctx") = some (Json.str (String.toList "None")) := by
  refine ⟨?_, ?_, rfl, rfl⟩
  · exact runLoop_completes
      ⟨7, 300, 60, some tplC10q, none, String.toList "sk", none, none, 7, none⟩
      tplC10q 0 inpDone [] pC10 respDone rfl (by decide) (by norm_num) rfl rfl rfl
  · exact runLoop_aborts
      ⟨7, 300, 60, some tplC10u, none, String.toList "sk", none, none, 7, none⟩
      tplC10u 0 inpDone [] PyExc.valueError rfl (by decide) (by norm_num) rfl

end AutoCrawler
